import Mathlib

/-!
Verification of the civiclookup repository: a shallow embedding of the
Python modules `get_us_district_info_from_address.py`,
`parse_result_no_special_cases.py` and `update_us_congressional_data.py`,
with theorems settling the behavioural claims about them.

Modelling conventions:
* Python dictionaries are association lists (`List (κ × α)`) in insertion
  order; assignment to an existing key replaces the value in place,
  assignment to a fresh key appends at the end (Python 3.7+ dict
  semantics).
* Python values (`Any`) are modelled by the inductive `PyVal`
  (strings, natural numbers, `None`, lists, dicts).  Numeric values in
  the repository are non-negative district numbers, so `Nat` suffices.
* Code that can raise an exception is modelled in the `Option` monad:
  `none` means the Python code raises at that point.
* `str.strip()`, `str.upper()` and `str.lower()` are modelled by
  executable character-list functions (`pyStrip`, `pyUpper`, `pyLower`)
  that agree with Python on the ASCII data the repository manipulates.
* `str()` of a list or dict is rendered by `pyRepr`, a close rendering of
  Python `repr`; it is exercised only on ill-typed cache data that no
  theorem relies on.
-/

/-- Model of a Python value (`Any`).  `vnone` doubles as `None` and
pandas `NaN` (both satisfy `pd.isna`). -/
inductive PyVal where
  | vstr : String → PyVal
  | vnat : Nat → PyVal
  | vnone : PyVal
  | vlist : List PyVal → PyVal
  | vdict : List (String × PyVal) → PyVal
deriving Inhabited

mutual

/-- Decidable equality on `PyVal` (the automatic derivation does not
handle the nested occurrence under `List`). -/
def pyDecEq : (a b : PyVal) → Decidable (a = b)
  | .vstr a, .vstr b =>
    if h : a = b then .isTrue (by rw [h]) else .isFalse (fun hh => h (by injection hh))
  | .vnat a, .vnat b =>
    if h : a = b then .isTrue (by rw [h]) else .isFalse (fun hh => h (by injection hh))
  | .vnone, .vnone => .isTrue rfl
  | .vlist a, .vlist b =>
    match pyDecEqList a b with
    | .isTrue h => .isTrue (by rw [h])
    | .isFalse h => .isFalse (fun hh => h (by injection hh))
  | .vdict a, .vdict b =>
    match pyDecEqDict a b with
    | .isTrue h => .isTrue (by rw [h])
    | .isFalse h => .isFalse (fun hh => h (by injection hh))
  | .vstr _, .vnat _ => .isFalse (fun h => nomatch h)
  | .vstr _, .vnone => .isFalse (fun h => nomatch h)
  | .vstr _, .vlist _ => .isFalse (fun h => nomatch h)
  | .vstr _, .vdict _ => .isFalse (fun h => nomatch h)
  | .vnat _, .vstr _ => .isFalse (fun h => nomatch h)
  | .vnat _, .vnone => .isFalse (fun h => nomatch h)
  | .vnat _, .vlist _ => .isFalse (fun h => nomatch h)
  | .vnat _, .vdict _ => .isFalse (fun h => nomatch h)
  | .vnone, .vstr _ => .isFalse (fun h => nomatch h)
  | .vnone, .vnat _ => .isFalse (fun h => nomatch h)
  | .vnone, .vlist _ => .isFalse (fun h => nomatch h)
  | .vnone, .vdict _ => .isFalse (fun h => nomatch h)
  | .vlist _, .vstr _ => .isFalse (fun h => nomatch h)
  | .vlist _, .vnat _ => .isFalse (fun h => nomatch h)
  | .vlist _, .vnone => .isFalse (fun h => nomatch h)
  | .vlist _, .vdict _ => .isFalse (fun h => nomatch h)
  | .vdict _, .vstr _ => .isFalse (fun h => nomatch h)
  | .vdict _, .vnat _ => .isFalse (fun h => nomatch h)
  | .vdict _, .vnone => .isFalse (fun h => nomatch h)
  | .vdict _, .vlist _ => .isFalse (fun h => nomatch h)

/-- Decidable equality for lists of `PyVal`. -/
def pyDecEqList : (a b : List PyVal) → Decidable (a = b)
  | [], [] => .isTrue rfl
  | [], _ :: _ => .isFalse (fun h => nomatch h)
  | _ :: _, [] => .isFalse (fun h => nomatch h)
  | a :: as, b :: bs =>
    match pyDecEq a b, pyDecEqList as bs with
    | .isTrue h1, .isTrue h2 => .isTrue (by rw [h1, h2])
    | .isFalse h1, _ => .isFalse (fun hh => h1 (by injection hh))
    | _, .isFalse h2 => .isFalse (fun hh => h2 (by injection hh))

/-- Decidable equality for dict item lists. -/
def pyDecEqDict : (a b : List (String × PyVal)) → Decidable (a = b)
  | [], [] => .isTrue rfl
  | [], _ :: _ => .isFalse (fun h => nomatch h)
  | _ :: _, [] => .isFalse (fun h => nomatch h)
  | (k1, v1) :: as, (k2, v2) :: bs =>
    match String.decEq k1 k2, pyDecEq v1 v2, pyDecEqDict as bs with
    | .isTrue h0, .isTrue h1, .isTrue h2 => .isTrue (by rw [h0, h1, h2])
    | .isFalse h0, _, _ =>
      .isFalse (fun hh => h0 (congrArg (fun l => (l.headD (k1, v1)).1) hh))
    | _, .isFalse h1, _ =>
      .isFalse (fun hh => h1 (congrArg (fun l => (l.headD (k1, v1)).2) hh))
    | _, _, .isFalse h2 => .isFalse (fun hh => h2 (by injection hh))

end

instance : DecidableEq PyVal := pyDecEq

/-- A Python dict with string keys, in insertion order. -/
abbrev PyDict := List (String × PyVal)

/-- Does `needle` occur at the head of `hay`? (character-list helper for
Python's substring operator). -/
def listHasPre : List Char → List Char → Bool
  | [], _ => true
  | _ :: _, [] => false
  | a :: as, b :: bs => a == b && listHasPre as bs

/-- Does `needle` occur anywhere inside `hay`?  Model of Python's
`needle in hay` on strings. -/
def listHasSub (needle : List Char) : List Char → Bool
  | [] => listHasPre needle []
  | c :: rest => listHasPre needle (c :: rest) || listHasSub needle rest

/-- Python `sub in s` (substring containment). -/
def strContains (hay sub : String) : Bool :=
  listHasSub sub.toList hay.toList

/-- Characters of `hay` strictly before the first occurrence of `needle`
(all of `hay` if `needle` does not occur).  Used for Python
`s.split(sep)[0]`. -/
def upToNext (needle : List Char) : List Char → List Char
  | [] => []
  | c :: rest =>
    if listHasPre needle (c :: rest) then []
    else c :: upToNext needle rest

/-- Characters of `hay` after the first occurrence of `needle`
(empty if `needle` does not occur). -/
def afterFirst (needle : List Char) : List Char → List Char
  | [] => []
  | c :: rest =>
    if listHasPre needle (c :: rest) then (c :: rest).drop needle.length
    else afterFirst needle rest

/-- Python `s.split(sep)[0]`: the text before the first `sep`. -/
def strUpTo (s sep : String) : String :=
  String.mk (upToNext sep.toList s.toList)

/-- Python `s.split(sep)[1]`: the text strictly between the first and the
second occurrence of `sep` (to the end of `s` when `sep` occurs once).
Only meaningful when `sep` occurs in `s`; call sites guard on
containment exactly where the Python code does. -/
def strSeg1 (s sep : String) : String :=
  String.mk (upToNext sep.toList (afterFirst sep.toList s.toList))

/-- ASCII whitespace, as stripped by Python `str.strip()`. -/
def isPySpace (c : Char) : Bool :=
  c == ' ' || c == '\t' || c == '\n' || c == '\r' || c == '\x0b' || c == '\x0c'

/-- Python `s.strip()` (whitespace at both ends; the repository only
strips ASCII data). -/
def pyStrip (s : String) : String :=
  String.mk (((s.toList.dropWhile isPySpace).reverse.dropWhile isPySpace).reverse)

/-- ASCII uppercase of one character (the identifiers handled by the
repository are ASCII). -/
def pyUpperChar (c : Char) : Char :=
  if 'a' ≤ c && c ≤ 'z' then Char.ofNat (c.toNat - 32) else c

/-- ASCII lowercase of one character. -/
def pyLowerChar (c : Char) : Char :=
  if 'A' ≤ c && c ≤ 'Z' then Char.ofNat (c.toNat + 32) else c

/-- Python `s.upper()`. -/
def pyUpper (s : String) : String :=
  String.mk (s.toList.map pyUpperChar)

/-- Python `s.lower()`. -/
def pyLower (s : String) : String :=
  String.mk (s.toList.map pyLowerChar)

/-- Value of a string of decimal digits. -/
def digitsToNat (s : String) : Nat :=
  s.toList.foldl (fun n c => n * 10 + (c.toNat - 48)) 0

/-- First value bound to key `k` in an association list. -/
def alGet {κ α : Type} [DecidableEq κ] : List (κ × α) → κ → Option α
  | [], _ => none
  | p :: rest, k => if p.1 = k then some p.2 else alGet rest k

/-- Python `k in d` for dicts. -/
def alHas {κ α : Type} [DecidableEq κ] (l : List (κ × α)) (k : κ) : Bool :=
  (alGet l k).isSome

/-- Python `d[k] = v`: replace in place if the key exists, else append. -/
def alInsert {κ α : Type} [DecidableEq κ] (l : List (κ × α)) (k : κ) (v : α) :
    List (κ × α) :=
  if alHas l k then l.map (fun p => if p.1 = k then (k, v) else p)
  else l ++ [(k, v)]

/-- Python truthiness for the modelled values. -/
def truthy : PyVal → Bool
  | .vstr s => !s.isEmpty
  | .vnat n => n != 0
  | .vnone => false
  | .vlist l => !l.isEmpty
  | .vdict d => !d.isEmpty

/-- `d.get(k, dflt)` on a dict we already know to be a dict. -/
def pyGetD (d : PyDict) (k : String) (dflt : PyVal) : PyVal :=
  (alGet d k).getD dflt

/-- `v.get(k, dflt)` on an arbitrary value: raises unless `v` is a dict. -/
def pyGetM (v : PyVal) (k : String) (dflt : PyVal) : Option PyVal :=
  match v with
  | .vdict d => some (pyGetD d k dflt)
  | _ => none

/-- Subscript `v[k]` with a string key: only dicts support it, and a
missing key raises. -/
def pySub (v : PyVal) (k : String) : Option PyVal :=
  match v with
  | .vdict d => alGet d k
  | _ => none

/-- Python `k in v` for an arbitrary container value; `none` models the
`TypeError` raised by non-containers. -/
def pyContains (v : PyVal) (k : String) : Option Bool :=
  match v with
  | .vdict d => some (alHas d k)
  | .vlist l => some (l.contains (.vstr k))
  | .vstr s => some (strContains s k)
  | _ => none

/-- Python iteration `for x in v`: lists yield elements, dicts yield
their keys, strings yield one-character strings; other values raise. -/
def pyIter : PyVal → Option (List PyVal)
  | .vlist l => some l
  | .vdict d => some (d.map (fun p => PyVal.vstr p.1))
  | .vstr s => some (s.toList.map (fun c => PyVal.vstr (String.mk [c])))
  | _ => none

mutual

/-- Python `repr`, close enough for the repository's data (string
escaping is not reproduced; no theorem depends on container rendering). -/
def pyRepr : PyVal → String
  | .vstr s => "\x27" ++ s ++ "\x27"
  | .vnat n => toString n
  | .vnone => "None"
  | .vlist xs => "[" ++ pyReprSeq xs ++ "]"
  | .vdict xs => "\x7b" ++ pyReprPairs xs ++ "\x7d"

/-- Comma-separated reprs of a list of values. -/
def pyReprSeq : List PyVal → String
  | [] => ""
  | [x] => pyRepr x
  | x :: y :: xs => pyRepr x ++ ", " ++ pyReprSeq (y :: xs)

/-- Comma-separated reprs of dict items. -/
def pyReprPairs : List (String × PyVal) → String
  | [] => ""
  | [(k, v)] => "\x27" ++ k ++ "\x27: " ++ pyRepr v
  | (k, v) :: y :: xs => "\x27" ++ k ++ "\x27: " ++ pyRepr v ++ ", " ++ pyReprPairs (y :: xs)

end

/-- Python `str()` (as used by f-string interpolation). -/
def pyToStr : PyVal → String
  | .vstr s => s
  | v => pyRepr v

/-- Fields filter from `get_us_district_info_from_address.filter_data`.
`keep_fields` / `delete_fields` are `Optional[Set[str]]`; modelled as an
optional list with membership; Python's `if keep_fields:` is truthiness,
so `some []` (an empty set) is falsy and falls through. -/
def optFieldsTruthy (o : Option (List String)) : Bool :=
  match o with
  | some l => !l.isEmpty
  | none => false

/-- `filter_data(data, keep_fields, delete_fields)` from
`get_us_district_info_from_address.py` lines 184-208. -/
def filter_data (data : PyDict) (keep_fields delete_fields : Option (List String)) :
    PyDict :=
  if optFieldsTruthy keep_fields then
    data.filter (fun p => (keep_fields.getD []).contains p.1)
  else if optFieldsTruthy delete_fields then
    data.filter (fun p => !(delete_fields.getD []).contains p.1)
  else
    data

/-- `filter_fields(row, keep_fields, delete_fields)` from
`update_us_congressional_data.py` lines 65-93; the row is already the
dict produced by `row.to_dict()`.  The body coincides with
`filter_data`. -/
def filter_fields (row : PyDict) (keep_fields delete_fields : Option (List String)) :
    PyDict :=
  if optFieldsTruthy keep_fields then
    row.filter (fun p => (keep_fields.getD []).contains p.1)
  else if optFieldsTruthy delete_fields then
    row.filter (fun p => !(delete_fields.getD []).contains p.1)
  else
    row

/-- The `STATE_MAPPING` table of `get_us_district_info_from_address.py`. -/
def STATE_MAPPING : List (String × String) :=
  [("AL", "Alabama"), ("AK", "Alaska"), ("AZ", "Arizona"), ("AR", "Arkansas"),
   ("CA", "California"), ("CO", "Colorado"), ("CT", "Connecticut"),
   ("DE", "Delaware"), ("FL", "Florida"), ("GA", "Georgia"), ("HI", "Hawaii"),
   ("ID", "Idaho"), ("IL", "Illinois"), ("IN", "Indiana"), ("IA", "Iowa"),
   ("KS", "Kansas"), ("KY", "Kentucky"), ("LA", "Louisiana"), ("ME", "Maine"),
   ("MD", "Maryland"), ("MA", "Massachusetts"), ("MI", "Michigan"),
   ("MN", "Minnesota"), ("MS", "Mississippi"), ("MO", "Missouri"),
   ("MT", "Montana"), ("NE", "Nebraska"), ("NV", "Nevada"),
   ("NH", "New Hampshire"), ("NJ", "New Jersey"), ("NM", "New Mexico"),
   ("NY", "New York"), ("NC", "North Carolina"), ("ND", "North Dakota"),
   ("OH", "Ohio"), ("OK", "Oklahoma"), ("OR", "Oregon"), ("PA", "Pennsylvania"),
   ("RI", "Rhode Island"), ("SC", "South Carolina"), ("SD", "South Dakota"),
   ("TN", "Tennessee"), ("TX", "Texas"), ("UT", "Utah"), ("VT", "Vermont"),
   ("VA", "Virginia"), ("WA", "Washington"), ("WV", "West Virginia"),
   ("WI", "Wisconsin"), ("WY", "Wyoming"), ("DC", "District of Columbia")]

/-- The static table inside `lookup_zip_code_state`. -/
def zip_to_state : List (String × String) :=
  [("94110", "CA"), ("94612", "CA"), ("10001", "NY"), ("82001", "WY")]

/-- `lookup_zip_code_state(zip_code)` (lines 461-466). -/
def lookup_zip_code_state (zip_code : String) : Option String :=
  alGet zip_to_state zip_code

/-- A legislator record as built by the result mapper: a small dict. -/
abbrev Rec := List (String × PyVal)

/-- One value of the `district_data` working dict of `parse_result`:
every entry created by the code is a dict with exactly the keys
`"senators"` and `"representatives"` (in the literal fixture entries the
two keys appear in the opposite order; key order inside an entry is
abstracted away by this structure and is not the subject of any claim). -/
structure Entry where
  senators : List Rec
  representatives : List Rec
deriving DecidableEq, Inhabited

/-- The working dict `district_data` of `parse_result`. -/
abbrev DD := List (String × Entry)

/-- Update the entry stored under `k` (no-op when `k` is absent; every
call site has just ensured presence, as the Python subscripts require). -/
def ddModify (dd : DD) (k : String) (f : Entry → Entry) : DD :=
  dd.map (fun p => if p.1 = k then (p.1, f p.2) else p)

/-- `district_data[k]["senators"] = l`. -/
def ddSetSen (dd : DD) (k : String) (l : List Rec) : DD :=
  ddModify dd k (fun e => { e with senators := l })

/-- `district_data[k]["representatives"].append(r)`. -/
def ddAppendRep (dd : DD) (k : String) (r : Rec) : DD :=
  ddModify dd k (fun e => { e with representatives := e.representatives ++ [r] })

/-- `district_data[k]` where the key is known to be present. -/
def ddGetE (dd : DD) (k : String) : Entry :=
  (alGet dd k).getD ⟨[], []⟩

/-- The name computed for a cached legislator record:
`rec.get("full_name", f"rec.get(first_name, ) rec.get(last_name, )").strip()`;
raises (`none`) when the `full_name` value is not a string. -/
def pyName (d : PyDict) : Option String :=
  match (alGet d "full_name").getD
      (.vstr (pyToStr (pyGetD d "first_name" (.vstr "")) ++ " " ++
              pyToStr (pyGetD d "last_name" (.vstr "")))) with
  | .vstr s => some (pyStrip s)
  | _ => none

/-- The senator dict built from one cached senator record (the loop body
shared verbatim by the three senator-formatting sites of
`parse_result`); raises when the cached record is not a dict. -/
def mkSenator (state_abbr : String) (sen : PyVal) : Option Rec :=
  match sen with
  | .vdict d =>
    (pyName d).map (fun nm =>
      [("name", .vstr nm),
       ("party", pyGetD d "party" (.vstr "Unknown")),
       ("role", .vstr "Senator"),
       ("state", .vstr state_abbr),
       ("bioguide_id", pyGetD d "bioguide_id" (.vstr ""))])
  | _ => none

/-- The representative dict built from a cached representative record;
raises when the record is not a dict. -/
def mkRep (role district_id : String) (cr : PyVal) : Option Rec :=
  match cr with
  | .vdict d =>
    (pyName d).map (fun nm =>
      [("name", .vstr nm),
       ("party", pyGetD d "party" (.vstr "Unknown")),
       ("role", .vstr role),
       ("district", .vstr district_id),
       ("bioguide_id", pyGetD d "bioguide_id" (.vstr ""))])
  | _ => none

/-- The condition
`cached_legislators and top in cached_legislators and key2 in cached_legislators[top]`
with Python short-circuiting; `none` models a raise while evaluating the
third conjunct on a non-container. -/
def cacheHas2 (cache : PyDict) (top key2 : String) : Option Bool :=
  if cache.isEmpty then some false
  else
    match alGet cache top with
    | none => some false
    | some v => pyContains v key2

/-- `cached_legislators[top][key2]`, evaluated only after `cacheHas2`
returned `true`; still raises when `cache[top]` is a non-dict container. -/
def cacheSub2 (cache : PyDict) (top key2 : String) : Option PyVal :=
  match alGet cache top with
  | some v => pySub v key2
  | none => none

/-- `cached_legislators["states"][abbr].get("senators", [])` followed by
the truthiness test and the formatting loop.  `some none` means the
falsy case (no assignment happens); `some (some l)` is the formatted
list; `none` is a raise. -/
def fetchSenList (cache : PyDict) (abbr : String) : Option (Option (List Rec)) := do
  let stE ← cacheSub2 cache "states" abbr
  let senv ← pyGetM stE "senators" (.vlist [])
  if truthy senv then
    match pyIter senv with
    | some sl => (sl.mapM (mkSenator abbr)).map some
    | none => none
  else
    pure none

/-- `cached_legislators["districts"][district_id].get("representative")`
followed by the truthiness test and formatting.  Same conventions as
`fetchSenList`. -/
def fetchRep (cache : PyDict) (district_id role : String) : Option (Option Rec) := do
  let dE ← cacheSub2 cache "districts" district_id
  let crv ← pyGetM dE "representative" .vnone
  if truthy crv then (mkRep role district_id crv).map some
  else pure none

/-- The two placeholder senators `"Senator 1 for XX"` / `"Senator 2 for XX"`. -/
def placeholderSens (state_abbr : String) : List Rec :=
  [[("name", .vstr ("Senator 1 for " ++ state_abbr)),
    ("role", .vstr "Senator"),
    ("state", .vstr state_abbr)],
   [("name", .vstr ("Senator 2 for " ++ state_abbr)),
    ("role", .vstr "Senator"),
    ("state", .vstr state_abbr)]]

/-- The placeholder representative `"Representative for ID"`. -/
def placeholderRep (district_id : String) : Rec :=
  [("name", .vstr ("Representative for " ++ district_id)),
   ("role", .vstr "Representative"),
   ("district", .vstr district_id)]

/-- `territories = ["DC", "PR", "GU", "VI", "MP", "AS"]`. -/
def territories : List String := ["DC", "PR", "GU", "VI", "MP", "AS"]

/-- The bare-state branch of `parse_result`
(`parse_result_no_special_cases.py` lines 30-106): state bucket
creation, senators from cache or placeholders, and conditional at-large
district creation. -/
def branchState (cache : PyDict) (divKeys : List String) (dd : DD) (ocd_id : String) :
    Option DD := do
  let state_abbr := pyUpper (strSeg1 ocd_id "state:")
  let dd := if alHas dd state_abbr then dd else alInsert dd state_abbr ⟨[], []⟩
  let c ← cacheHas2 cache "states" state_abbr
  let dd ←
    if c then do
      let r ← fetchSenList cache state_abbr
      pure (match r with
        | some l => ddSetSen dd state_abbr l
        | none => dd)
    else pure dd
  let dd :=
    if (ddGetE dd state_abbr).senators.isEmpty then
      ddSetSen dd state_abbr (placeholderSens state_abbr)
    else dd
  let district_id := state_abbr ++ "-AL"
  let create_at_large :=
    !(divKeys.any (fun o =>
        strContains o ("state:" ++ pyLower state_abbr ++ "/cd:") &&
        !(strContains o "cd:al")))
  if create_at_large && !(alHas dd district_id) then do
    let dd := alInsert dd district_id ⟨(ddGetE dd state_abbr).senators, []⟩
    let c2 ← cacheHas2 cache "districts" district_id
    let dd ←
      if c2 then do
        let r ← fetchRep cache district_id "Representative"
        pure (match r with
          | some rep => ddAppendRep dd district_id rep
          | none => dd)
      else pure dd
    let dd :=
      if (ddGetE dd district_id).representatives.isEmpty then
        ddAppendRep dd district_id (placeholderRep district_id)
      else dd
    pure dd
  else pure dd

/-- The non-state district/territory branch of `parse_result` (lines
109-145).  The branch is entered when `"district:"` occurs in the
lowered identifier; the subsequent split is on the original identifier
and raises when `"district:"` occurs only in the lowered form. -/
def branchDistrict (cache : PyDict) (dd : DD) (ocd_id : String) : Option DD :=
  if !(strContains ocd_id "district:") then none
  else do
    let dc0 := pyUpper (strSeg1 ocd_id "district:")
    let district_code := if strContains dc0 "/" then strUpTo dc0 "/" else dc0
    let district_id := district_code ++ "-AL"
    let dd := if alHas dd district_id then dd else alInsert dd district_id ⟨[], []⟩
    if territories.contains district_code then do
      let role :=
        if district_code != "PR" then "Delegate (Non-Voting)"
        else "Resident Commissioner (Non-Voting)"
      let c ← cacheHas2 cache "districts" district_id
      let dd ←
        if c then do
          let r ← fetchRep cache district_id role
          pure (match r with
            | some rep => ddAppendRep dd district_id rep
            | none => dd)
        else pure dd
      let dd :=
        if (ddGetE dd district_id).representatives.isEmpty then
          ddAppendRep dd district_id
            [("name", .vstr (role ++ " for " ++ district_code)),
             ("role", .vstr role),
             ("district", .vstr district_id)]
        else dd
      pure dd
    else pure dd

/-- The congressional-district branch of `parse_result` (lines 148-219).
`split("state:")[1]` raises when the identifier has `"/cd:"` but no
`"state:"`. -/
def branchCd (cache : PyDict) (dd : DD) (ocd_id : String) : Option DD :=
  if !(strContains ocd_id "state:") then none
  else do
    let state_abbr := pyUpper (strUpTo (strSeg1 ocd_id "state:") "/")
    let district_num := strSeg1 ocd_id "cd:"
    let district_id :=
      if district_num == "al" then state_abbr ++ "-AL"
      else state_abbr ++ "-" ++ district_num
    let dd := if alHas dd district_id then dd else alInsert dd district_id ⟨[], []⟩
    let c ← cacheHas2 cache "districts" district_id
    let rep_data ←
      if c then do
        let r ← fetchRep cache district_id "Representative"
        pure (match r with
          | some rep => rep
          | none => placeholderRep district_id)
      else pure (placeholderRep district_id)
    let dd := ddAppendRep dd district_id rep_data
    if state_abbr.isEmpty then pure dd
    else
      if alHas dd state_abbr && !(ddGetE dd state_abbr).senators.isEmpty then
        pure (ddSetSen dd district_id (ddGetE dd state_abbr).senators)
      else do
        let c2 ← cacheHas2 cache "states" state_abbr
        if c2 then do
          let r ← fetchSenList cache state_abbr
          pure (match r with
            | some l => ddSetSen dd district_id l
            | none => dd)
        else pure (ddSetSen dd district_id (placeholderSens state_abbr))

/-- Dispatch on one OCD identifier (the main loop body of
`parse_result`, lines 28-219). -/
def processDivision (cache : PyDict) (divKeys : List String) (dd : DD)
    (ocd_id : String) : Option DD :=
  if strContains ocd_id "state:" && !(strContains (strSeg1 ocd_id "state:") "/") then
    branchState cache divKeys dd ocd_id
  else if strContains (pyLower ocd_id) "district:" then
    branchDistrict cache dd ocd_id
  else if strContains ocd_id "/cd:" then
    branchCd cache dd ocd_id
  else some dd

/-- One step of the post-loop at-large derivation (lines 223-255),
for one snapshotted `state_code`. -/
def atLargeOne (cache : PyDict) (dd : DD) (state_code : String) : Option DD :=
  if state_code.length != 2 then pure dd
  else
    let district_id := state_code ++ "-AL"
    if alHas dd district_id then pure dd
    else do
      let dd := alInsert dd district_id ⟨(ddGetE dd state_code).senators, []⟩
      let c ← cacheHas2 cache "districts" district_id
      let dd ←
        if c then do
          let r ← fetchRep cache district_id "Representative"
          pure (match r with
            | some rep => ddAppendRep dd district_id rep
            | none => dd)
        else pure dd
      let dd :=
        if (ddGetE dd district_id).representatives.isEmpty then
          ddAppendRep dd district_id (placeholderRep district_id)
        else dd
      pure dd

/-- The post-loop at-large derivation (lines 221-255): runs only when no
key of `district_data` contains `"-"` and the dict is non-empty; iterates
over a snapshot of the keys. -/
def atLargeFill (cache : PyDict) (dd : DD) : Option DD :=
  if !(dd.any (fun p => strContains p.1 "-")) && !dd.isEmpty then
    (dd.map Prod.fst).foldlM (atLargeOne cache) dd
  else pure dd

/-- Fixture records of the test-data section (lines 268-302). -/
def pelosiRec : Rec :=
  [("name", .vstr "Nancy Pelosi"), ("party", .vstr "Democratic"),
   ("role", .vstr "Representative"), ("district", .vstr "CA-12")]

/-- Fixture senator Alex Padilla. -/
def padillaRec : Rec :=
  [("name", .vstr "Alex Padilla"), ("party", .vstr "Democratic"),
   ("role", .vstr "Senator"), ("state", .vstr "CA")]

/-- Fixture senator Laphonza R. Butler. -/
def butlerRec : Rec :=
  [("name", .vstr "Laphonza R. Butler"), ("party", .vstr "Democratic"),
   ("role", .vstr "Senator"), ("state", .vstr "CA")]

/-- Fixture delegate Eleanor Holmes Norton. -/
def nortonRec : Rec :=
  [("name", .vstr "Eleanor Holmes Norton"), ("party", .vstr "Democratic"),
   ("role", .vstr "Delegate (Non-Voting)"), ("district", .vstr "DC-AL")]

/-- Fixture senator Bernie Sanders. -/
def sandersRec : Rec :=
  [("name", .vstr "Bernie Sanders"), ("party", .vstr "Independent"),
   ("role", .vstr "Senator"), ("state", .vstr "VT")]

/-- Fixture senator Peter Welch. -/
def welchRec : Rec :=
  [("name", .vstr "Peter Welch"), ("party", .vstr "Democratic"),
   ("role", .vstr "Senator"), ("state", .vstr "VT")]

/-- Fixture representative Becca Balint. -/
def balintRec : Rec :=
  [("name", .vstr "Becca Balint"), ("party", .vstr "Democratic"),
   ("role", .vstr "Representative"), ("district", .vstr "VT-AL")]

/-- Fixture entry for `"CA-12"`. -/
def fixtureCA : Entry := ⟨[padillaRec, butlerRec], [pelosiRec]⟩

/-- Fixture entry for `"DC-AL"`: no senators, Norton as sole delegate. -/
def fixtureDC : Entry := ⟨[], [nortonRec]⟩

/-- Fixture entry for `"VT-AL"`. -/
def fixtureVT : Entry := ⟨[sandersRec, welchRec], [balintRec]⟩

/-- The `test_data` dict of the fixture section, in insertion order. -/
def fixtureTestData : List (String × Entry) :=
  [("CA-12", fixtureCA), ("DC-AL", fixtureDC), ("VT-AL", fixtureVT)]

/-- The per-entry application condition of the fixture section (lines
305-314). -/
def fixtureMatches (test_id ocd_id : String) : Bool :=
  (test_id == "CA-12" && strContains ocd_id "/state:ca/cd:12") ||
  (test_id == "DC-AL" && strContains ocd_id "/district:dc") ||
  (test_id == "VT-AL" && strContains ocd_id "/state:vt" && !(strContains ocd_id "/cd:"))

/-- The fixture section (lines 257-314): when any identifier mentions
one of the three test paths, overwrite the matching test entries. -/
def fixtureFill (divKeys : List String) (dd : DD) : DD :=
  if divKeys.any (fun id =>
      strContains id "/state:ca/cd:12" || strContains id "/district:dc" ||
      strContains id "/state:vt") then
    fixtureTestData.foldl
      (fun dd2 p =>
        if divKeys.any (fun id => fixtureMatches p.1 id) then alInsert dd2 p.1 p.2
        else dd2)
      dd
  else dd

/-- Render a working-dict entry back into the Python dict it stands for. -/
def entryToPy (e : Entry) : PyVal :=
  .vdict [("senators", .vlist (e.senators.map PyVal.vdict)),
          ("representatives", .vlist (e.representatives.map PyVal.vdict))]

/-- `data.get("divisions", {}).items()`: raises when the `divisions`
value is present but not a dict. -/
def getDivisions (data : PyDict) : Option (List (String × PyVal)) :=
  match alGet data "divisions" with
  | none => some []
  | some (.vdict d) => some d
  | some _ => none

/-- `parse_result(data, cached_legislators)` from
`parse_result_no_special_cases.py` (the mapper actually used by the
lookup tool, since the module imports successfully).  The division
values (`info`) are never read by this function, so the fold runs over
the identifier keys. -/
def parse_result (data cache : PyDict) : Option PyDict :=
  match getDivisions data with
  | none => none
  | some divs =>
    match (divs.map Prod.fst).foldlM
        (fun dd id => processDivision cache (divs.map Prod.fst) dd id) ([] : DD) with
    | none => none
    | some dd0 =>
      match atLargeFill cache dd0 with
      | none => none
      | some dd1 =>
        some [("districts",
          .vdict (((fixtureFill (divs.map Prod.fst) dd1).filter
            (fun p => strContains p.1 "-")).map (fun p => (p.1, entryToPy p.2))))]

/-- `filter_data` applied to one senators/representatives member of
arbitrary type.  The Python function iterates `data.items()` only when
`keep_fields` or `delete_fields` is truthy - raising there on a
non-dict member - and in the `else` branch returns the member unchanged
whatever its type. -/
def filter_data_val (v : PyVal) (keep_fields delete_fields : Option (List String)) :
    Option PyVal :=
  if optFieldsTruthy keep_fields || optFieldsTruthy delete_fields then
    match v with
    | .vdict d => some (PyVal.vdict (filter_data d keep_fields delete_fields))
    | _ => none
  else some v

/-- One district entry of `filter_legislator_data` (lines 478-493): the
entry must be a dict; its `senators` / `representatives` default to `[]`
when absent, and each member goes through `filter_data`
(`filter_data_val`: a raise on a non-dict member only when a truthy
keep/delete set makes `filter_data` iterate `.items()`; unchanged
otherwise). -/
def flEntry (info : PyVal) (keep_fields delete_fields : Option (List String)) :
    Option PyVal :=
  match info with
  | .vdict infod =>
    match pyIter (pyGetD infod "senators" (.vlist [])) with
    | none => none
    | some sl =>
      match sl.mapM (fun s => filter_data_val s keep_fields delete_fields) with
      | none => none
      | some sens =>
        match pyIter (pyGetD infod "representatives" (.vlist [])) with
        | none => none
        | some rl =>
          match rl.mapM (fun r => filter_data_val r keep_fields delete_fields) with
          | none => none
          | some reps =>
            some (.vdict [("senators", .vlist sens), ("representatives", .vlist reps)])
  | _ => none

/-- `filter_legislator_data(data, keep_fields, delete_fields)` (lines
469-499).  `result.setdefault("districts", {})` runs once per input
district, so the `districts` key exists in the output exactly when the
input mapping is non-empty; the `error` value is copied verbatim at the
end. -/
def filter_legislator_data (data : PyDict)
    (keep_fields delete_fields : Option (List String)) : Option PyDict :=
  match pyGetD data "districts" (.vdict []) with
  | .vdict items =>
    match items.foldlM
        (fun (acc : PyDict) (p : String × PyVal) =>
          (flEntry p.2 keep_fields delete_fields).map (fun e => alInsert acc p.1 e))
        ([] : PyDict) with
    | none => none
    | some inner =>
      match alGet data "error" with
      | some ev =>
        some ((if items.isEmpty then ([] : PyDict)
               else [("districts", .vdict inner)]) ++ [("error", ev)])
      | none =>
        some (if items.isEmpty then ([] : PyDict)
              else [("districts", .vdict inner)])
  | _ => none

/-- `get_district_info_from_civic_api(address)` (lines 211-224) with the
network interaction abstracted: `lookupRes` is the outcome of
`lookup_divisions` (`Except.error` for any raised exception - timeout,
HTTP error, malformed JSON body).  `USE_GENERIC_PARSER` is true in this
repository, so the generic `parse_result` runs; any exception inside it
is caught by the same handler.  The `sys.exit` taken by `get_api_key`
when no key is configured raises `SystemExit`, which is not an
`Exception`; that path is outside this model. -/
def get_district_info_from_civic_api (lookupRes : Except String PyDict)
    (cache : PyDict) : Option PyDict :=
  match lookupRes with
  | .error _ => none
  | .ok data =>
    match parse_result data cache with
    | some out => some out
    | none => none

/-- The per-result "no districts" test
`not result or not result.get("districts")` (line 525). -/
def noDistrictsCond (result : Option PyDict) : Bool :=
  match result with
  | none => true
  | some r => r.isEmpty || !truthy (pyGetD r "districts" .vnone)

/-- The `full_address` computed on line 519:
`f"{address}, USA" if "USA" not in address else address`. -/
def full_address_of (address : String) : String :=
  if strContains address "USA" then address else address ++ ", USA"

/-- The error payload returned on lines 537-540. -/
def errorResult (address : String) : PyDict :=
  [("districts", .vdict []),
   ("error", .vstr ("Could not find district information for \x27" ++ address ++
                    "\x27. Try providing a more specific address."))]

/-- The 5-digit ZIP test on line 526:
`len(address.strip()) == 5 and address.strip().isdigit()`. -/
def zip5Cond (address : String) : Bool :=
  (pyStrip address).length == 5 && (pyStrip address).toList.all Char.isDigit

/-- The tail of `get_us_district_info_from_address` (lines 535-543):
`if not result:` return the error payload, else field-filter. -/
def finalizeResult (address : String) (keep_fields delete_fields : Option (List String))
    (result : Option PyDict) : Option PyDict :=
  match result with
  | none => some (errorResult address)
  | some r =>
    if r.isEmpty then some (errorResult address)
    else filter_legislator_data r keep_fields delete_fields

/-- `get_us_district_info_from_address(address, keep_fields,
delete_fields)` (lines 502-543).  `civic` abstracts
`get_district_info_from_civic_api` (whose value model is above); the
second component of the result records the addresses passed to it, in
call order, so that the resolution attempts are observable.  The first
component is `none` when the final `filter_legislator_data` raises. -/
def get_us_district_info_from_address (civic : String → Option PyDict)
    (address : String) (keep_fields delete_fields : Option (List String)) :
    Option PyDict × List String :=
  let full_address := full_address_of address
  let r1 := civic full_address
  let step2 :=
    if noDistrictsCond r1 then
      if zip5Cond address then
        match lookup_zip_code_state (pyStrip address) with
        | some state =>
          match alGet STATE_MAPPING state with
          | some state_name =>
            (civic (state_name ++ ", USA"),
             [full_address, state_name ++ ", USA"])
          | none => (r1, [full_address])
        | none => (r1, [full_address])
      else (r1, [full_address])
    else (r1, [full_address])
  (finalizeResult address keep_fields delete_fields step2.1, step2.2)

/-- `pd.isna` on a row cell: true exactly for `NaN` / `None`. -/
def pyIsNa : PyVal → Bool
  | .vnone => true
  | _ => false

/-- Python `a or b` (value-returning, by truthiness). -/
def pyOr (a b : PyVal) : PyVal :=
  if truthy a then a else b

/-- `row.get("state") or row.get("state_code")` (line 120). -/
def rowStateVal (row : PyDict) : PyVal :=
  pyOr (pyGetD row "state" .vnone) (pyGetD row "state_code" .vnone)

/-- `int(x)` as applied to the district cell: defined on numbers and on
numeral strings (Python accepts those); raises otherwise.  The upstream
CSV holds non-negative district numbers, so `Nat` suffices. -/
def pyIntOf : PyVal → Option Nat
  | .vnat n => some n
  | .vstr s =>
    if !(pyStrip s).toList.isEmpty && (pyStrip s).toList.all Char.isDigit then
      some (digitsToNat (pyStrip s))
    else none
  | _ => none

/-- A value of the `states` table built by `build_legislators_dict`:
`setdefault(state, {}).setdefault("senators", []).append(...)` only ever
creates the `senators` list, so the entry is that list. -/
abbrev StatesTable := List (PyVal × List Rec)

/-- A value of the `districts` table: `{"representative": filtered}`. -/
structure DistrictsEntry where
  representative : Rec
deriving DecidableEq, Inhabited

/-- The nested dict returned by `build_legislators_dict`. -/
structure LegData where
  states : StatesTable
  districts : List (String × DistrictsEntry)
deriving DecidableEq, Inhabited

/-- `data["states"].setdefault(state, {}).setdefault("senators", []).append(rec)`. -/
def statesAppend (t : StatesTable) (k : PyVal) (r : Rec) : StatesTable :=
  if alHas t k then t.map (fun p => if p.1 = k then (p.1, p.2 ++ [r]) else p)
  else t ++ [(k, [r])]

/-- One row of the loop in `build_legislators_dict`
(`update_us_congressional_data.py` lines 119-134).  The row is the dict
form of the pandas row; `row.get` defaults to `None` for a missing
column. -/
def buildStep (keep_fields delete_fields : Option (List String)) (st : LegData)
    (row : PyDict) : Option LegData :=
  let state := rowStateVal row
  let dist := pyGetD row "district" .vnone
  let filtered := filter_fields row keep_fields delete_fields
  if pyIsNa dist then
    some { st with states := statesAppend st.states state filtered }
  else
    match pyIntOf dist with
    | none => none
    | some n =>
      some { st with
             districts := alInsert st.districts
               (pyToStr state ++ "-" ++ toString n) ⟨filtered⟩ }

/-- The `districts` key written by `buildStep` for a row with a numeric
district, `f"st-int(dist)"`; `none` for a senator row or a row whose
district cell `int()` would reject. -/
def rowDistKey (row : PyDict) : Option String :=
  if pyIsNa (pyGetD row "district" .vnone) then none
  else (pyIntOf (pyGetD row "district" .vnone)).map
    (fun n => pyToStr (rowStateVal row) ++ "-" ++ toString n)

/-- `build_legislators_dict(df, keep_fields, delete_fields)` (lines
96-136), with the DataFrame presented as its list of rows. -/
def build_legislators_dict (rows : List PyDict)
    (keep_fields delete_fields : Option (List String)) : Option LegData :=
  rows.foldlM (buildStep keep_fields delete_fields) ⟨[], []⟩

section AssocLemmas

variable {κ α : Type} [DecidableEq κ]

theorem alGet_append_of_none {l1 : List (κ × α)} (l2 : List (κ × α)) {k : κ}
    (h : alGet l1 k = none) : alGet (l1 ++ l2) k = alGet l2 k := by
  induction l1 with
  | nil => rfl
  | cons p rest ih =>
    rw [List.cons_append, alGet]
    rw [alGet] at h
    by_cases hk : p.1 = k
    · simp [hk] at h
    · simp only [hk, if_false] at h ⊢
      exact ih h

theorem alGet_append_of_some {l1 : List (κ × α)} (l2 : List (κ × α)) {k : κ} {v : α}
    (h : alGet l1 k = some v) : alGet (l1 ++ l2) k = some v := by
  induction l1 with
  | nil => simp [alGet] at h
  | cons p rest ih =>
    rw [List.cons_append, alGet]
    rw [alGet] at h
    by_cases hk : p.1 = k
    · simpa [hk] using h
    · simp only [hk, if_false] at h ⊢
      exact ih h

theorem alGet_map_of_some {l : List (κ × α)} {k : κ} {v : α} (w : α)
    (h : alGet l k = some v) :
    alGet (l.map (fun p => if p.1 = k then (k, w) else p)) k = some w := by
  induction l with
  | nil => simp [alGet] at h
  | cons p rest ih =>
    rw [alGet] at h
    by_cases hk : p.1 = k
    · simp [List.map_cons, hk, alGet]
    · simp only [hk, if_false] at h
      simpa [List.map_cons, hk, alGet] using ih h

theorem alGet_insert_self (l : List (κ × α)) (k : κ) (v : α) :
    alGet (alInsert l k v) k = some v := by
  rw [alInsert]
  by_cases h : alHas l k
  · rw [if_pos h]
    rw [alHas, Option.isSome_iff_exists] at h
    obtain ⟨w, hw⟩ := h
    exact alGet_map_of_some v hw
  · rw [if_neg h]
    rw [alHas, Option.isSome_iff_exists] at h
    push_neg at h
    have hn : alGet l k = none := by
      cases hv : alGet l k with
      | none => rfl
      | some w => exact absurd hv (h w)
    rw [alGet_append_of_none _ hn]
    simp [alGet]

theorem alGet_map_ne {l : List (κ × α)} {k k' : κ} (v : α) (h : k' ≠ k) :
    alGet (l.map (fun p => if p.1 = k then (k, v) else p)) k' = alGet l k' := by
  induction l with
  | nil => rfl
  | cons p rest ih =>
    by_cases hk : p.1 = k
    · have h2 : ¬ (k = k') := fun hc => h hc.symm
      simp [List.map_cons, hk, alGet, h2, ih]
    · simp [List.map_cons, hk, alGet, ih]

theorem alGet_append_single_ne (l : List (κ × α)) {k k' : κ} (v : α) (h : k' ≠ k) :
    alGet (l ++ [(k, v)]) k' = alGet l k' := by
  induction l with
  | nil =>
    have h2 : ¬ (k = k') := fun hc => h hc.symm
    simp [alGet, h2]
  | cons p rest ih =>
    by_cases hk : p.1 = k'
    · simp [alGet, hk]
    · simp [alGet, hk, ih]

theorem alGet_insert_ne (l : List (κ × α)) {k k' : κ} (v : α) (h : k' ≠ k) :
    alGet (alInsert l k v) k' = alGet l k' := by
  rw [alInsert]
  by_cases hh : alHas l k
  · rw [if_pos hh]
    exact alGet_map_ne v h
  · rw [if_neg hh]
    exact alGet_append_single_ne l v h

theorem alGet_mem {l : List (κ × α)} {k : κ} {v : α} (h : alGet l k = some v) :
    (k, v) ∈ l := by
  induction l with
  | nil => simp [alGet] at h
  | cons p rest ih =>
    rw [alGet] at h
    by_cases hk : p.1 = k
    · rw [if_pos hk] at h
      have hp : p = (k, v) := Prod.ext hk (Option.some.inj h)
      rw [hp]
      exact List.mem_cons_self _ _
    · rw [if_neg hk] at h
      exact List.mem_cons_of_mem _ (ih h)

theorem mem_alInsert {l : List (κ × α)} {k : κ} {v : α} {p : κ × α}
    (h : p ∈ alInsert l k v) : p ∈ l ∨ p = (k, v) := by
  rw [alInsert] at h
  by_cases hh : alHas l k
  · rw [if_pos hh] at h
    obtain ⟨q, hq, hmap⟩ := List.mem_map.mp h
    by_cases hk : q.1 = k
    · right
      simp [hk] at hmap
      exact hmap.symm
    · left
      simp only [hk, if_false] at hmap
      exact hmap ▸ hq
  · rw [if_neg hh] at h
    rcases List.mem_append.mp h with h1 | h1
    · exact Or.inl h1
    · right
      simpa using h1

theorem alGet_filterKey (q : κ → Bool) (l : List (κ × α)) (k : κ) :
    alGet (l.filter (fun p => q p.1)) k = if q k then alGet l k else none := by
  induction l with
  | nil => simp [alGet]
  | cons p rest ih =>
    by_cases hq : q p.1 <;> by_cases hk : p.1 = k
    · subst hk
      simp [List.filter_cons, hq, alGet]
    · simp [List.filter_cons, hq, alGet, hk, ih]
    · subst hk
      simp [List.filter_cons, hq, alGet, ih]
    · simp [List.filter_cons, hq, alGet, hk, ih]

theorem alGet_mapVal {β : Type} (f : α → β) (l : List (κ × α)) (k : κ) :
    alGet (l.map (fun p => (p.1, f p.2))) k = (alGet l k).map f := by
  induction l with
  | nil => simp [alGet]
  | cons p rest ih =>
    by_cases hk : p.1 = k
    · simp [List.map_cons, alGet, hk]
    · simp only [List.map_cons, alGet, hk, if_false]
      exact ih

omit [DecidableEq κ] in
theorem keys_filter_subset {q : κ × α → Bool} {l : List (κ × α)} {k : κ}
    (h : k ∈ (l.filter q).map Prod.fst) : k ∈ l.map Prod.fst := by
  obtain ⟨p, hp, hk⟩ := List.mem_map.mp h
  exact List.mem_map.mpr ⟨p, (List.mem_filter.mp hp).1, hk⟩

end AssocLemmas

theorem keys_filterKey_mem {κ α : Type} (f : κ → Bool) (d : List (κ × α)) (k : κ) :
    k ∈ (d.filter (fun p => f p.1)).map Prod.fst ↔ f k = true ∧ k ∈ d.map Prod.fst := by
  simp only [List.mem_map, List.mem_filter]
  constructor
  · rintro ⟨p, ⟨hp, hf⟩, hk⟩
    exact ⟨hk ▸ hf, ⟨p, hp, hk⟩⟩
  · rintro ⟨hf, p, hp, hk⟩
    exact ⟨p, ⟨hp, hk ▸ hf⟩, hk⟩

/-- C9: for every address, if the division lookup raises any exception
(timeout, HTTP error, malformed JSON body), `get_district_info_from_civic_api`
catches it and returns the no-result signal `None` instead of
propagating the exception to its caller. -/
theorem c9_civic_api_catches_exceptions (e : String) (cache : PyDict) :
    get_district_info_from_civic_api (Except.error e) cache = none := rfl

/-- C5: applying the result mapper twice to the same `DivisionResponse`
and legislator cache yields identical results (in particular identical
`districts` maps).  `parse_result` is embedded as a pure function of
exactly its two parameters - the Python function reads no module-level
state - so determinism is definitional. -/
theorem c5_parse_result_deterministic (data cache : PyDict) :
    parse_result data cache = parse_result data cache := rfl

/-- C8 (amended): the address handed to the first API resolution gets
`", USA"` appended exactly when the substring `"USA"` (not the claimed
`", USA"`) is absent from the input address, and is otherwise passed
unchanged. -/
theorem c8_usa_suffix_rule (civic : String → Option PyDict) (address : String)
    (keep_fields delete_fields : Option (List String)) :
    (get_us_district_info_from_address civic address keep_fields delete_fields).2.head? =
      some (if strContains address "USA" then address else address ++ ", USA") := by
  unfold get_us_district_info_from_address full_address_of
  repeat' split
  all_goals simp_all [apply_ite]

/-- C8 (counterexample): for the address `"USA"`, the claimed trigger
`", USA" not present` holds, yet the address is passed to the single
resolution attempt unchanged - no `", USA"` is appended. -/
theorem c8_counterexample_usa_substring :
    strContains "USA" ", USA" = false ∧
    (get_us_district_info_from_address (fun _ => none) "USA" none none).2 = ["USA"] := by
  exact ⟨by decide, rfl⟩

/-- C3 (counterexample): the empty keep-set is a valid keep-set/delete-set
pair (`delete_fields` unset), yet `filter_data` returns the record
unchanged - an empty Python set is falsy, so the keep branch is skipped -
and the result keeps the key `"a"`, which is not in the intersection of
the keep-set with the record's keys. -/
theorem c3_counterexample_empty_keepset :
    (filter_data [("a", PyVal.vstr "x")] (some []) none).map Prod.fst = ["a"] ∧
    "a" ∉ ([] : List String) := by
  exact ⟨rfl, by simp⟩

/-- C3 (amended): for every record and every keep-set/delete-set pair,
`filter_data` and `filter_fields` never introduce keys absent from the
original record; and for every NON-EMPTY keep-set the filtered record's
keys are exactly the intersection of the keep-set with the record's
keys.  (The original claim fails for the empty keep-set, which is falsy
in Python and disables filtering.) -/
theorem c3_filter_key_discipline (d : PyDict) (keep_fields delete_fields : Option (List String))
    (k : String) :
    (k ∈ (filter_data d keep_fields delete_fields).map Prod.fst → k ∈ d.map Prod.fst) ∧
    (k ∈ (filter_fields d keep_fields delete_fields).map Prod.fst → k ∈ d.map Prod.fst) ∧
    (∀ l, l ≠ [] →
      (k ∈ (filter_data d (some l) delete_fields).map Prod.fst ↔
        k ∈ l ∧ k ∈ d.map Prod.fst)) ∧
    (∀ l, l ≠ [] →
      (k ∈ (filter_fields d (some l) delete_fields).map Prod.fst ↔
        k ∈ l ∧ k ∈ d.map Prod.fst)) := by
  refine ⟨?_, ?_, ?_, ?_⟩
  · unfold filter_data
    split
    · exact keys_filter_subset
    · split
      · exact keys_filter_subset
      · exact id
  · unfold filter_fields
    split
    · exact keys_filter_subset
    · split
      · exact keys_filter_subset
      · exact id
  · intro l hl
    have ht : optFieldsTruthy (some l) = true := by
      simp [optFieldsTruthy, hl]
    unfold filter_data
    rw [if_pos ht]
    simp only [Option.getD_some]
    rw [keys_filterKey_mem (fun s => l.contains s) d k]
    simp
  · intro l hl
    have ht : optFieldsTruthy (some l) = true := by
      simp [optFieldsTruthy, hl]
    unfold filter_fields
    rw [if_pos ht]
    simp only [Option.getD_some]
    rw [keys_filterKey_mem (fun s => l.contains s) d k]
    simp

/-- C3 witness: the amended theorem applied to a concrete record,
non-empty keep-set `["name", "party"]`, and key `"name"`. -/
theorem c3_filter_key_discipline_witness :
    ("name" ∈ (filter_data [("name", PyVal.vstr "J"), ("phone", PyVal.vstr "5")]
        (some ["name", "party"]) none).map Prod.fst ↔
      "name" ∈ ["name", "party"] ∧
      "name" ∈ ([("name", PyVal.vstr "J"), ("phone", PyVal.vstr "5")] : PyDict).map Prod.fst) :=
  (c3_filter_key_discipline [("name", PyVal.vstr "J"), ("phone", PyVal.vstr "5")]
    (some ["name", "party"]) none "name").2.2.1 ["name", "party"] (by decide)

/-- C1 (counterexample): when the initial resolution succeeds but yields
an empty districts map (`{"districts": {}}`, as `parse_result` returns
for a response without matching divisions) and the input is not a
5-digit ZIP, no resolution produced any districts, yet the function
returns the empty dict `{}` - the `districts` and `error` keys are both
omitted, because the error payload is only built when the result object
itself is falsy. -/
theorem c1_counterexample_empty_districts :
    (get_us_district_info_from_address (fun _ => some [("districts", PyVal.vdict [])])
        "Main Street" none none).1 = some [] ∧
    alGet ([] : PyDict) "districts" = none ∧
    alGet ([] : PyDict) "error" = none := by
  exact ⟨rfl, rfl, rfl⟩

/-- C1 (amended): when neither the initial API resolution nor the ZIP
fallback produces a result object (both resolution attempts return the
no-result signal `None`), `get_us_district_info_from_address` returns a
dictionary whose `districts` value is the empty map and whose `error`
value is a non-empty string.  (As originally stated - covering also a
successful resolution with an empty districts map - the claim fails;
see the counterexample.) -/
theorem c1_no_result_error_payload (civic : String → Option PyDict) (address : String)
    (keep_fields delete_fields : Option (List String))
    (h : ∀ s, civic s = none) :
    (get_us_district_info_from_address civic address keep_fields delete_fields).1 =
      some (errorResult address) ∧
    ∃ msg, alGet (errorResult address) "error" = some (.vstr msg) ∧ msg ≠ "" := by
  constructor
  · unfold get_us_district_info_from_address
    simp only [h]
    repeat' split
    all_goals simp_all [finalizeResult, h]
  · refine ⟨_, rfl, ?_⟩
    intro hc
    have h2 := congrArg String.data hc
    simp [String.data_append] at h2

/-- C1 witness: the amended theorem at a civic resolver that always
fails and a concrete address. -/
theorem c1_no_result_error_payload_witness :
    (get_us_district_info_from_address (fun _ => none) "Invalid Address XYZ" none none).1 =
      some (errorResult "Invalid Address XYZ") ∧
    ∃ msg, alGet (errorResult "Invalid Address XYZ") "error" = some (.vstr msg) ∧ msg ≠ "" :=
  c1_no_result_error_payload (fun _ => none) "Invalid Address XYZ" none none
    (fun _ => rfl)

/-- C6: when the first resolution yields no districts and the stripped
input is a 5-digit numeric string found in the static ZIP table, the
function performs exactly one further resolution attempt, using the
mapped state's full name followed by `", USA"` instead of the ZIP - the
query log is precisely the initial address followed by that one retry. -/
theorem c6_zip_fallback_single_retry (civic : String → Option PyDict) (address : String)
    (keep_fields delete_fields : Option (List String)) (st : String)
    (h5 : zip5Cond address = true)
    (hz : lookup_zip_code_state (pyStrip address) = some st)
    (hnd : noDistrictsCond (civic (full_address_of address)) = true) :
    ∃ state_name, alGet STATE_MAPPING st = some state_name ∧
      (get_us_district_info_from_address civic address keep_fields delete_fields).2 =
        [full_address_of address, state_name ++ ", USA"] := by
  have hmem : (pyStrip address, st) ∈ zip_to_state := alGet_mem hz
  have hst : st = "CA" ∨ st = "NY" ∨ st = "WY" := by
    simp [zip_to_state] at hmem
    rcases hmem with ⟨_, h⟩ | ⟨_, h⟩ | ⟨_, h⟩ | ⟨_, h⟩ <;> simp [h]
  have hsm : ∃ nm, alGet STATE_MAPPING st = some nm := by
    rcases hst with h | h | h <;> subst h <;> exact ⟨_, rfl⟩
  obtain ⟨nm, hnm⟩ := hsm
  refine ⟨nm, hnm, ?_⟩
  simp only [get_us_district_info_from_address, hnd, if_true, h5, hz, hnm]

/-- C6 witness: a failing resolver and the ZIP `"94110"`, which the
static table maps to California; the two logged queries are the ZIP
query and the single state-name retry. -/
theorem c6_zip_fallback_single_retry_witness :
    ∃ state_name, alGet STATE_MAPPING "CA" = some state_name ∧
      (get_us_district_info_from_address (fun _ => none) "94110" none none).2 =
        [full_address_of "94110", state_name ++ ", USA"] :=
  c6_zip_fallback_single_retry (fun _ => none) "94110" none none "CA"
    (by decide) rfl rfl

theorem parse_result_eq_some {data cache : PyDict} {out : PyDict}
    (h : parse_result data cache = some out) :
    ∃ divs dd1, getDivisions data = some divs ∧
      out = [("districts",
        .vdict (((fixtureFill (divs.map Prod.fst) dd1).filter
          (fun p => strContains p.1 "-")).map (fun p => (p.1, entryToPy p.2))))] := by
  unfold parse_result at h
  split at h
  · simp at h
  · rename_i divs hdv
    split at h
    · simp at h
    · rename_i dd0 hf
      split at h
      · simp at h
      · rename_i dd1 ha
        exact ⟨divs, dd1, hdv, (Option.some.inj h).symm⟩

/-- C2: for every `DivisionResponse` and legislator cache on which the
result mapper returns, every key of the returned `districts` map
contains a `"-"`, and no dash-free key (in particular no bare two-letter
state bucket built while processing) appears in the map. -/
theorem c2_district_keys_contain_dash (data cache : PyDict) (out : PyDict)
    (h : parse_result data cache = some out) :
    ∃ m, alGet out "districts" = some (.vdict m) ∧
      (∀ k ∈ m.map Prod.fst, strContains k "-" = true) ∧
      (∀ k, strContains k "-" = false → alGet m k = none) := by
  obtain ⟨divs, dd1, _, hout⟩ := parse_result_eq_some h
  subst hout
  refine ⟨((fixtureFill (divs.map Prod.fst) dd1).filter
    (fun p => strContains p.1 "-")).map (fun p => (p.1, entryToPy p.2)),
    by simp [alGet], ?_, ?_⟩
  · intro k hk
    simp only [List.map_map] at hk
    obtain ⟨p, hp, hpk⟩ := List.mem_map.mp hk
    simp only [Function.comp_apply] at hpk
    have hpf := (List.mem_filter.mp hp).2
    rw [← hpk]
    exact hpf
  · intro k hk
    rw [alGet_mapVal entryToPy, alGet_filterKey (fun s => strContains s "-"), hk]
    simp

/-- C2 witness: the empty response and empty cache, on which the mapper
returns an empty districts map. -/
theorem c2_district_keys_contain_dash_witness :
    ∃ m, alGet [("districts", PyVal.vdict [])] "districts" = some (.vdict m) ∧
      (∀ k ∈ m.map Prod.fst, strContains k "-" = true) ∧
      (∀ k, strContains k "-" = false → alGet m k = none) :=
  c2_district_keys_contain_dash [] [] [("districts", PyVal.vdict [])] rfl

/-- C7: every `DivisionResponse` containing the OCD identifier
`country:us/district:dc` (when the mapper returns at all) yields a
district keyed `"DC-AL"` whose representatives list has exactly one
record carrying the `"Delegate (Non-Voting)"` role and whose senators
list is empty. -/
theorem c7_dc_delegate_entry (data cache : PyDict) (divs : List (String × PyVal))
    (out : PyDict)
    (hdv : getDivisions data = some divs)
    (hid : "country:us/district:dc" ∈ divs.map Prod.fst)
    (h : parse_result data cache = some out) :
    ∃ m reps, alGet out "districts" = some (.vdict m) ∧
      alGet m "DC-AL" =
        some (.vdict [("senators", .vlist []), ("representatives", .vlist reps)]) ∧
      reps.length = 1 ∧
      ∀ r ∈ reps, ∃ rd, r = PyVal.vdict rd ∧
        alGet rd "role" = some (.vstr "Delegate (Non-Voting)") := by
  obtain ⟨divs2, dd1, hdv2, hout⟩ := parse_result_eq_some h
  rw [hdv] at hdv2
  injection hdv2 with h2
  subst h2
  have hany : (divs.map Prod.fst).any (fun id =>
      strContains id "/state:ca/cd:12" || strContains id "/district:dc" ||
      strContains id "/state:vt") = true :=
    List.any_eq_true.mpr ⟨_, hid, by decide⟩
  have hdc : (divs.map Prod.fst).any (fun id => fixtureMatches "DC-AL" id) = true :=
    List.any_eq_true.mpr ⟨_, hid, by decide⟩
  have hfix : alGet (fixtureFill (divs.map Prod.fst) dd1) "DC-AL" = some fixtureDC := by
    rw [fixtureFill, if_pos hany]
    simp only [fixtureTestData, List.foldl_cons, List.foldl_nil]
    rw [if_pos hdc]
    split
    · rw [alGet_insert_ne _ _ (by decide)]
      exact alGet_insert_self _ _ _
    · exact alGet_insert_self _ _ _
  subst hout
  refine ⟨((fixtureFill (divs.map Prod.fst) dd1).filter
    (fun p => strContains p.1 "-")).map (fun p => (p.1, entryToPy p.2)),
    [PyVal.vdict nortonRec], by simp [alGet], ?_, rfl, ?_⟩
  · rw [alGet_mapVal entryToPy, alGet_filterKey (fun s => strContains s "-"), hfix]
    rfl
  · intro r hr
    simp only [List.mem_singleton] at hr
    subst hr
    exact ⟨nortonRec, rfl, by decide⟩

/-- C7 witness: a response whose only division is
`country:us/district:dc`, with an empty cache. -/
theorem c7_dc_delegate_entry_witness :
    ∃ m reps,
      alGet [("districts", PyVal.vdict
        [("DC-AL", PyVal.vdict
          [("senators", PyVal.vlist []),
           ("representatives", PyVal.vlist [PyVal.vdict nortonRec])])])] "districts" =
        some (.vdict m) ∧
      alGet m "DC-AL" =
        some (.vdict [("senators", .vlist []), ("representatives", .vlist reps)]) ∧
      reps.length = 1 ∧
      ∀ r ∈ reps, ∃ rd, r = PyVal.vdict rd ∧
        alGet rd "role" = some (.vstr "Delegate (Non-Voting)") :=
  c7_dc_delegate_entry
    [("divisions", .vdict [("country:us/district:dc", .vdict [])])] []
    [("country:us/district:dc", .vdict [])]
    [("districts", PyVal.vdict
      [("DC-AL", PyVal.vdict
        [("senators", PyVal.vlist []),
         ("representatives", PyVal.vlist [PyVal.vdict nortonRec])])])]
    rfl (by simp) rfl

theorem flEntry_shape {info : PyVal} {keep_fields delete_fields : Option (List String)}
    {e : PyVal} (h : flEntry info keep_fields delete_fields = some e) :
    ∃ sens reps, e = PyVal.vdict
      [("senators", PyVal.vlist sens), ("representatives", PyVal.vlist reps)] := by
  unfold flEntry at h
  split at h
  · split at h
    · simp at h
    · split at h
      · simp at h
      · split at h
        · simp at h
        · split at h
          · simp at h
          · exact ⟨_, _, (Option.some.inj h).symm⟩
  · simp at h

theorem flEntry_absent_senators {infod : PyDict}
    {keep_fields delete_fields : Option (List String)} {e : PyVal}
    (h : flEntry (.vdict infod) keep_fields delete_fields = some e)
    (hs : alGet infod "senators" = none) :
    ∃ reps, e = PyVal.vdict
      [("senators", PyVal.vlist []), ("representatives", PyVal.vlist reps)] := by
  simp only [flEntry] at h
  rw [show pyGetD infod "senators" (.vlist []) = .vlist [] by simp [pyGetD, hs]] at h
  simp only [pyIter, List.mapM_nil, Option.pure_def] at h
  split at h
  · simp at h
  · split at h
    · simp at h
    · exact ⟨_, (Option.some.inj h).symm⟩

theorem flFold_shape (keep_fields delete_fields : Option (List String)) :
    ∀ (items : List (String × PyVal)) (acc inner : PyDict),
      items.foldlM
        (fun (acc : PyDict) (p : String × PyVal) =>
          (flEntry p.2 keep_fields delete_fields).map (fun e => alInsert acc p.1 e))
        acc = some inner →
      (∀ p ∈ acc, ∃ s r, p.2 = PyVal.vdict
        [("senators", PyVal.vlist s), ("representatives", PyVal.vlist r)]) →
      ∀ p ∈ inner, ∃ s r, p.2 = PyVal.vdict
        [("senators", PyVal.vlist s), ("representatives", PyVal.vlist r)] := by
  intro items
  induction items with
  | nil =>
    intro acc inner h hacc
    simp only [List.foldlM_nil, Option.pure_def, Option.some.injEq] at h
    exact h ▸ hacc
  | cons q rest ih =>
    intro acc inner h hacc
    rw [List.foldlM_cons] at h
    cases hq : flEntry q.2 keep_fields delete_fields with
    | none => rw [hq] at h; simp at h
    | some e =>
      rw [hq] at h
      simp only [Option.map_some', Option.some_bind] at h
      apply ih _ _ h
      intro p hp
      rcases mem_alInsert hp with hmem | hpe
      · exact hacc p hmem
      · obtain ⟨s, r, hsr⟩ := flEntry_shape hq
        rw [hpe]
        exact ⟨s, r, hsr⟩

/-- C10: for every input dict on which `filter_legislator_data` returns,
the output's top-level keys are at most `districts` and `error`; the
`error` value is copied verbatim (present in the output iff present in
the input); every other top-level key of the input is dropped (the
output binds nothing else); every output district entry is a dict with
exactly the keys `senators` and `representatives`, each a list,
`senators` synthesized empty when absent from the input entry; and when
the input's `districts` mapping is empty or absent and no `error` key
exists, the result is the empty dict with no `districts` key at all. -/
theorem c10_filter_legislator_data_frame (data : PyDict)
    (keep_fields delete_fields : Option (List String)) (out : PyDict)
    (h : filter_legislator_data data keep_fields delete_fields = some out) :
    (∀ k ∈ out.map Prod.fst, k = "districts" ∨ k = "error") ∧
    alGet out "error" = alGet data "error" ∧
    (∀ m, alGet out "districts" = some (.vdict m) →
      ∀ p ∈ m, ∃ s r, p.2 = PyVal.vdict
        [("senators", PyVal.vlist s), ("representatives", PyVal.vlist r)]) ∧
    ((alGet data "districts" = none ∨ alGet data "districts" = some (.vdict [])) →
      alGet data "error" = none → out = []) ∧
    (∀ infod e, flEntry (.vdict infod) keep_fields delete_fields = some e →
      alGet infod "senators" = none →
      ∃ reps, e = PyVal.vdict
        [("senators", PyVal.vlist []), ("representatives", PyVal.vlist reps)]) := by
  unfold filter_legislator_data at h
  split at h
  case h_2 => simp at h
  case h_1 items hitems =>
    split at h
    case h_1 => simp at h
    case h_2 inner hfold =>
      have hempty : (alGet data "districts" = none ∨
          alGet data "districts" = some (.vdict [])) → items = [] := by
        intro hd
        rcases hd with hd | hd <;>
          · rw [pyGetD, hd] at hitems
            simpa using hitems.symm
      split at h
      case h_1 ev herr =>
        obtain rfl := (Option.some.inj h).symm
        refine ⟨?_, ?_, ?_, ?_, ?_⟩
        · intro k hk
          split at hk <;> simp_all
        · rw [herr]
          split <;> simp [alGet]
        · intro m hm
          split at hm
          · simp [alGet] at hm
          · simp [alGet] at hm
            subst hm
            exact flFold_shape keep_fields delete_fields items [] _ hfold (by simp)
        · intro hd herr2
          rw [herr2] at herr
          cases herr
        · intro infod e he hs
          exact flEntry_absent_senators he hs
      case h_2 herr =>
        obtain rfl := (Option.some.inj h).symm
        refine ⟨?_, ?_, ?_, ?_, ?_⟩
        · intro k hk
          split at hk <;> simp_all
        · rw [herr]
          split <;> simp [alGet]
        · intro m hm
          split at hm
          · simp [alGet] at hm
          · simp [alGet] at hm
            subst hm
            exact flFold_shape keep_fields delete_fields items [] _ hfold (by simp)
        · intro hd _
          have : items = [] := hempty hd
          simp [this]
        · intro infod e he hs
          exact flEntry_absent_senators he hs

/-- The C10 witness input: one district whose `senators` list holds a
non-dict member, an extraneous top-level key, and an `error` value;
both filter sets unset, so `filter_data` passes the member through
unchanged and the call succeeds. -/
def c10DataW : PyDict :=
  [("districts", .vdict
     [("CA-12", .vdict [("senators", .vlist [.vstr "not a dict"])])]),
   ("note", .vstr "extra"),
   ("error", .vstr "e")]

/-- The output `filter_legislator_data` returns on `c10DataW`. -/
def c10OutW : PyDict :=
  [("districts", .vdict
     [("CA-12", .vdict
       [("senators", .vlist [.vstr "not a dict"]),
        ("representatives", .vlist [])])]),
   ("error", .vstr "e")]

/-- C10 witness: the frame theorem at `c10DataW` - with no keep/delete
set the non-dict senators member passes through `filter_data`
unchanged, the extraneous `"note"` key is dropped, the `error` value is
copied, and the rebuilt entry has exactly the two list-valued keys. -/
theorem c10_filter_legislator_data_frame_witness :
    (∀ k ∈ c10OutW.map Prod.fst, k = "districts" ∨ k = "error") ∧
    alGet c10OutW "error" = alGet c10DataW "error" ∧
    (∀ m, alGet c10OutW "districts" = some (.vdict m) →
      ∀ p ∈ m, ∃ s r, p.2 = PyVal.vdict
        [("senators", PyVal.vlist s), ("representatives", PyVal.vlist r)]) ∧
    ((alGet c10DataW "districts" = none ∨
        alGet c10DataW "districts" = some (.vdict [])) →
      alGet c10DataW "error" = none → c10OutW = []) ∧
    (∀ infod e, flEntry (.vdict infod) none none = some e →
      alGet infod "senators" = none →
      ∃ reps, e = PyVal.vdict
        [("senators", PyVal.vlist []), ("representatives", PyVal.vlist reps)]) :=
  c10_filter_legislator_data_frame c10DataW none none c10OutW rfl

theorem alGet_mapAppend_of_some {κ α : Type} [DecidableEq κ]
    {t : List (κ × List α)} {k : κ} {old : List α}
    (h : alGet t k = some old) (r : α) :
    alGet (t.map (fun p => if p.1 = k then (p.1, p.2 ++ [r]) else p)) k =
      some (old ++ [r]) := by
  induction t with
  | nil => simp [alGet] at h
  | cons p rest ih =>
    rw [alGet] at h
    by_cases hk : p.1 = k
    · rw [if_pos hk] at h
      have ho := Option.some.inj h
      subst ho
      simp [List.map_cons, hk, alGet]
    · rw [if_neg hk] at h
      simp [List.map_cons, hk, alGet, ih h]

theorem alGet_statesAppend_self (t : StatesTable) (k : PyVal) (r : Rec) :
    alGet (statesAppend t k r) k = some ((alGet t k).getD [] ++ [r]) := by
  rw [statesAppend]
  by_cases hh : alHas t k
  · rw [if_pos hh]
    rw [alHas, Option.isSome_iff_exists] at hh
    obtain ⟨old, hold⟩ := hh
    rw [hold, Option.getD_some]
    exact alGet_mapAppend_of_some hold r
  · rw [if_neg hh]
    have hn : alGet t k = none := by
      rw [alHas, Option.isSome_iff_exists] at hh
      push_neg at hh
      cases hv : alGet t k with
      | none => rfl
      | some w => exact absurd hv (hh w)
    rw [alGet_append_of_none _ hn, hn]
    simp [alGet]

theorem buildStep_senator (keep_fields delete_fields : Option (List String))
    (st : LegData) (row : PyDict)
    (h : pyIsNa (pyGetD row "district" .vnone) = true) :
    buildStep keep_fields delete_fields st row =
      some { st with states := statesAppend st.states (rowStateVal row)
                       (filter_fields row keep_fields delete_fields) } := by
  simp [buildStep, h]

theorem buildStep_rep (keep_fields delete_fields : Option (List String))
    (st : LegData) (row : PyDict) (n : Nat)
    (h : pyGetD row "district" .vnone = .vnat n) :
    buildStep keep_fields delete_fields st row =
      some { st with
             districts := alInsert st.districts
                            (pyToStr (rowStateVal row) ++ "-" ++ toString n)
                            ⟨filter_fields row keep_fields delete_fields⟩ } := by
  simp [buildStep, h, pyIsNa, pyIntOf]

theorem buildStep_preserves_key (keep_fields delete_fields : Option (List String))
    {st st2 : LegData} {row : PyDict} {k : String}
    (hne : rowDistKey row ≠ some k)
    (h : buildStep keep_fields delete_fields st row = some st2) :
    alGet st2.districts k = alGet st.districts k := by
  simp only [buildStep] at h
  split at h
  · have h2 := Option.some.inj h
    rw [← h2]
  · rename_i hna
    cases hint : pyIntOf (pyGetD row "district" .vnone) with
    | none => rw [hint] at h; cases h
    | some n =>
      rw [hint] at h
      have h2 := Option.some.inj h
      rw [← h2]
      have hne2 : k ≠ pyToStr (rowStateVal row) ++ "-" ++ toString n := by
        intro hc
        apply hne
        rw [rowDistKey, if_neg hna, hint]
        simp [hc]
      exact alGet_insert_ne _ _ hne2

theorem buildFold_preserves (keep_fields delete_fields : Option (List String))
    {k : String} :
    ∀ (post : List PyDict) (st st' : LegData),
      post.foldlM (buildStep keep_fields delete_fields) st = some st' →
      (∀ r2 ∈ post, rowDistKey r2 ≠ some k) →
      alGet st'.districts k = alGet st.districts k := by
  intro post
  induction post with
  | nil =>
    intro st st' h _
    simp only [List.foldlM_nil, Option.pure_def, Option.some.injEq] at h
    rw [h]
  | cons q rest ih =>
    intro st st' h hk
    rw [List.foldlM_cons] at h
    cases hq : buildStep keep_fields delete_fields st q with
    | none => rw [hq] at h; exact Option.noConfusion h
    | some st1 =>
      rw [hq] at h
      have h2 : rest.foldlM (buildStep keep_fields delete_fields) st1 = some st' := h
      rw [ih st1 st' h2 (fun r2 hr2 => hk r2 (List.mem_cons_of_mem _ hr2))]
      exact buildStep_preserves_key keep_fields delete_fields
        (hk q (List.mem_cons_self _ _)) hq

/-- C4: the cache builder classifies a row with a missing (`NaN`)
district as a senator appended at the end of `states[state].senators`
(districts untouched); a row with a numeric district `n` - including
`0`, the at-large seat - as a representative stored under the key
`f"state-n"` with no zero-padding (states untouched); and over a whole
DataFrame the last row producing a given district key overwrites any
earlier one. -/
theorem c4_cache_builder_classification (keep_fields delete_fields : Option (List String)) :
    (∀ (st : LegData) (row : PyDict),
      pyIsNa (pyGetD row "district" .vnone) = true →
      ∃ st', buildStep keep_fields delete_fields st row = some st' ∧
        st'.districts = st.districts ∧
        alGet st'.states (rowStateVal row) =
          some ((alGet st.states (rowStateVal row)).getD [] ++
            [filter_fields row keep_fields delete_fields])) ∧
    (∀ (st : LegData) (row : PyDict) (n : Nat),
      pyGetD row "district" .vnone = .vnat n →
      ∃ st', buildStep keep_fields delete_fields st row = some st' ∧
        st'.states = st.states ∧
        alGet st'.districts (pyToStr (rowStateVal row) ++ "-" ++ toString n) =
          some ⟨filter_fields row keep_fields delete_fields⟩) ∧
    (∀ (pre post : List PyDict) (r : PyDict) (st' : LegData) (k : String),
      rowDistKey r = some k →
      (∀ r2 ∈ post, rowDistKey r2 ≠ some k) →
      build_legislators_dict (pre ++ r :: post) keep_fields delete_fields = some st' →
      alGet st'.districts k = some ⟨filter_fields r keep_fields delete_fields⟩) := by
  refine ⟨?_, ?_, ?_⟩
  · intro st row h
    exact ⟨_, buildStep_senator _ _ st row h, rfl, alGet_statesAppend_self _ _ _⟩
  · intro st row n h
    exact ⟨_, buildStep_rep _ _ st row n h, rfl,
      alGet_insert_self st.districts
        (pyToStr (rowStateVal row) ++ "-" ++ toString n)
        ⟨filter_fields row keep_fields delete_fields⟩⟩
  · intro pre post r st' k hkey hpost hbuild
    unfold build_legislators_dict at hbuild
    rw [List.foldlM_append] at hbuild
    cases hpre : pre.foldlM (buildStep keep_fields delete_fields) ⟨[], []⟩ with
    | none => rw [hpre] at hbuild; exact Option.noConfusion hbuild
    | some st1 =>
      rw [hpre] at hbuild
      have hb1 : (r :: post).foldlM (buildStep keep_fields delete_fields) st1 =
          some st' := hbuild
      rw [List.foldlM_cons] at hb1
      cases hr : buildStep keep_fields delete_fields st1 r with
      | none => rw [hr] at hb1; exact Option.noConfusion hb1
      | some st2 =>
        rw [hr] at hb1
        have hb2 : post.foldlM (buildStep keep_fields delete_fields) st2 =
            some st' := hb1
        rw [buildFold_preserves keep_fields delete_fields post st2 st' hb2 hpost]
        rw [rowDistKey] at hkey
        split at hkey
        · cases hkey
        · rename_i hna
          simp only [buildStep] at hr
          rw [if_neg hna] at hr
          cases hint : pyIntOf (pyGetD r "district" .vnone) with
          | none => rw [hint] at hkey; cases hkey
          | some n =>
            rw [hint] at hkey hr
            simp only [Option.map_some', Option.some.injEq] at hkey
            have h2 := Option.some.inj hr
            subst hkey
            rw [← h2]
            exact alGet_insert_self _ _ _

/-- Concrete senator row (missing district) for the C4 witness. -/
def c4RowSenator : PyDict :=
  [("first_name", .vstr "Alex"), ("last_name", .vstr "Padilla"),
   ("state", .vstr "CA"), ("district", .vnone)]

/-- Concrete at-large representative row (district `0`) for the C4 witness. -/
def c4RowRep : PyDict :=
  [("first_name", .vstr "Harriet"), ("last_name", .vstr "Hageman"),
   ("state", .vstr "WY"), ("district", .vnat 0)]

/-- A superseded representative row for the same seat, for the
last-writer-wins part of the C4 witness. -/
def c4RowRepOld : PyDict :=
  [("first_name", .vstr "Old"), ("last_name", .vstr "Seat"),
   ("state", .vstr "WY"), ("district", .vnat 0)]

/-- C4 witness: the classification theorem at concrete rows - a senator
row, an at-large (district `0`, key `"WY-0"`) representative row, and a
build in which that representative row overwrites an earlier row with
the same key and a later senator row does not disturb it. -/
theorem c4_cache_builder_classification_witness :
    (∃ st', buildStep none none ⟨[], []⟩ c4RowSenator = some st' ∧
      st'.districts = (⟨[], []⟩ : LegData).districts ∧
      alGet st'.states (rowStateVal c4RowSenator) =
        some ((alGet (⟨[], []⟩ : LegData).states (rowStateVal c4RowSenator)).getD [] ++
          [filter_fields c4RowSenator none none])) ∧
    (∃ st', buildStep none none ⟨[], []⟩ c4RowRep = some st' ∧
      st'.states = (⟨[], []⟩ : LegData).states ∧
      alGet st'.districts (pyToStr (rowStateVal c4RowRep) ++ "-" ++ toString 0) =
        some ⟨filter_fields c4RowRep none none⟩) ∧
    alGet (⟨[(PyVal.vstr "CA", [c4RowSenator])],
           [("WY-0", ⟨c4RowRep⟩)]⟩ : LegData).districts "WY-0" =
      some ⟨filter_fields c4RowRep none none⟩ :=
  ⟨(c4_cache_builder_classification none none).1 ⟨[], []⟩ c4RowSenator (by decide),
   (c4_cache_builder_classification none none).2.1 ⟨[], []⟩ c4RowRep 0 (by decide),
   (c4_cache_builder_classification none none).2.2 [c4RowRepOld] [c4RowSenator]
     c4RowRep ⟨[(PyVal.vstr "CA", [c4RowSenator])], [("WY-0", ⟨c4RowRep⟩)]⟩ "WY-0"
     (by decide) (by decide) rfl⟩
